import Mathlib

/-!
# pv_agent: the context-lifecycle manager

A shallow embedding of `server/server.go` and `server/api.go`.

The container runtime (the Docker client), the host `mount` command, the
listening socket and the readiness dial are external collaborators.  Each call
the Go code issues to them is modelled by a function that

* appends the call to the log `Runtime.calls`, in program order,
* takes the value the collaborator answers with as an argument (an outcome
  chosen by the environment), and
* changes `Runtime.containers`, the ids the runtime lists, exactly when the
  call reports success: a successful create adds the new id, a successful
  remove drops the id, and a call that reports an error changes nothing.

Go strings are `String`; a Go `map` is an association list whose order is the
iteration order the runtime happened to choose.
-/

namespace PvAgent

/-! ## Values exchanged with the collaborators -/

/-- A Go `error` value: its message, and whether the type assertion
`err.(net.Error)` succeeds with `Timeout()` true. -/
structure GoError where
  msg : String
  netTimeout : Bool
  deriving DecidableEq, Repr

/-- The type `nat.Port` of the runtime client library, a key of the form
`"<num>/<proto>"`, kept as its two components. -/
structure Port where
  num : Nat
  proto : String
  deriving DecidableEq, Repr

/-- The method `Port.Int()` of the runtime client library: the number of the
key parsed as a 16-bit unsigned value (`strconv.ParseUint(_, 10, 16)`), the
parse error being dropped, so a key whose number is above 65535 gives 0. -/
def Port.Int (p : Port) : Nat := if p.num ≤ 65535 then p.num else 0

/-- The key `nat.Port(fmt.Sprintf("%d/tcp", port))`. -/
def tcpPort (port : Nat) : Port := { num := port, proto := "tcp" }

/-- The type `nat.PortBinding`. -/
structure PortBinding where
  HostIP : String
  HostPort : String
  deriving DecidableEq, Repr

/-- The type `nat.PortMap`, a Go map from port keys to binding slices (a nil
slice and an empty slice are both `[]`). -/
abbrev PortMap := List (Port × List PortBinding)

/-- The type `nat.PortSet`, a Go map from port keys to `struct{}`. -/
abbrev PortSet := List (Port × Unit)

/-- Assignment `m[k] = v` on a Go map: an existing key keeps its place and
gets the new value, a new key is added. -/
def mapSet {κ ν : Type} [DecidableEq κ] (m : List (κ × ν)) (k : κ) (v : ν) : List (κ × ν) :=
  match m with
  | [] => [(k, v)]
  | (k', v') :: rest => if k' = k then (k, v) :: rest else (k', v') :: mapSet rest k v

/-- The keys of a Go map. -/
def mapKeys {κ ν : Type} (m : List (κ × ν)) : List κ := m.map Prod.fst

/-- The type `container.DeviceMapping`. -/
structure DeviceMapping where
  PathOnHost : String
  PathInContainer : String
  CgroupPermissions : String
  deriving DecidableEq, Repr

/-- The fields of `container.Config` that `OpenContext` fills in. -/
structure Config where
  Env : List String
  Image : String
  ExposedPorts : PortSet
  Volumes : List (String × Unit)
  Cmd : List String
  deriving DecidableEq, Repr

/-- The fields of `container.HostConfig` that `OpenContext` fills in. -/
structure HostConfig where
  CapAdd : List String
  Binds : List String
  PortBindings : PortMap
  SecurityOpt : List String
  Devices : List DeviceMapping
  deriving DecidableEq, Repr

/-- One call issued to an external collaborator. -/
inductive Call where
  | ContainerList
  | ContainerCreate (config : Config) (hostConfig : HostConfig)
  | ContainerStart (id : String)
  | ContainerStop (id : String) (timeoutSeconds : Option Nat)
  | ContainerKill (id : String) (signal : String)
  | ContainerRemove (id : String) (force : Bool)
  | ContainerInspect (id : String)
  | Dial (target : String)
  | Mount
  | Listen (address : String)
  | NewEnvClient
  | RegisterAgentServiceServer
  | Serve (address : String)
  deriving DecidableEq, Repr

/-- The state of the outside world: the container ids the runtime lists, and
the calls issued so far, oldest first. -/
structure Runtime where
  containers : List String
  calls : List Call
  deriving DecidableEq, Repr

/-- Record one call. -/
def Runtime.log (rt : Runtime) (c : Call) : Runtime :=
  { rt with calls := rt.calls ++ [c] }

/-! ## The runtime client calls -/

/-- The call `dockerClient.ContainerList`: on success the ids the runtime lists. -/
def ContainerList (out : Option GoError) (rt : Runtime) : Except GoError (List String) × Runtime :=
  match out with
  | some err => (.error err, rt.log .ContainerList)
  | none => (.ok rt.containers, rt.log .ContainerList)

/-- The call `dockerClient.ContainerCreate`: on success the runtime assigns an
id and lists the new container. -/
def ContainerCreate (config : Config) (hostConfig : HostConfig) (out : Except GoError String)
    (rt : Runtime) : Except GoError String × Runtime :=
  match out with
  | .error err => (.error err, rt.log (.ContainerCreate config hostConfig))
  | .ok id =>
    (.ok id, { containers := rt.containers ++ [id],
               calls := rt.calls ++ [.ContainerCreate config hostConfig] })

/-- The call `dockerClient.ContainerStart`. -/
def ContainerStart (id : String) (out : Option GoError) (rt : Runtime) :
    Option GoError × Runtime :=
  (out, rt.log (.ContainerStart id))

/-- The call `dockerClient.ContainerStop`. -/
def ContainerStop (id : String) (timeoutSeconds : Option Nat) (out : Option GoError)
    (rt : Runtime) : Option GoError × Runtime :=
  (out, rt.log (.ContainerStop id timeoutSeconds))

/-- The call `dockerClient.ContainerKill`. -/
def ContainerKill (id : String) (signal : String) (out : Option GoError) (rt : Runtime) :
    Option GoError × Runtime :=
  (out, rt.log (.ContainerKill id signal))

/-- The call `dockerClient.ContainerRemove`: the container leaves the list
exactly when the call reports success. -/
def ContainerRemove (id : String) (force : Bool) (out : Option GoError) (rt : Runtime) :
    Option GoError × Runtime :=
  match out with
  | some err => (some err, rt.log (.ContainerRemove id force))
  | none =>
    (none, { containers := rt.containers.filter (fun c => decide (c ≠ id)),
             calls := rt.calls ++ [.ContainerRemove id force] })

/-- The call `dockerClient.ContainerInspect`, reduced to the field
`NetworkSettings.Ports` of its answer. -/
def ContainerInspect (id : String) (out : Except GoError PortMap) (rt : Runtime) :
    Except GoError PortMap × Runtime :=
  (out, rt.log (.ContainerInspect id))

/-- The blocking `grpc.Dial` on the control endpoint, which answers within its
ten-second timeout; the fixed wait before it and the log line after it have no
effect on the result and are left out. -/
def Dial (target : String) (out : Option GoError) (rt : Runtime) : Option GoError × Runtime :=
  (out, rt.log (.Dial target))

/-- Running `exec.Command("mount").Output()`. -/
def mountOutput (out : Except GoError String) (rt : Runtime) : Except GoError String × Runtime :=
  (out, rt.log .Mount)

/-! ## Strings -/

/-- Cut a character list at every occurrence of `sep`; the pieces are the
fields between the separators, so an input without `sep` gives one piece. -/
def splitChars (sep : Char) : List Char → List (List Char)
  | [] => [[]]
  | c :: cs =>
    if c = sep then [] :: splitChars sep cs
    else
      match splitChars sep cs with
      | [] => [[c]]
      | field :: fields => (c :: field) :: fields

/-- The function `strings.Split(s, sep)` for a one-character separator, which
is how both call sites use it. -/
def Split (s : String) (sep : Char) : List String :=
  (splitChars sep s.data).map String.mk

/-- The format `fmt.Sprintf("%s:%s", a, b)`. -/
def sprintfHostPort (a b : String) : String := a ++ ":" ++ b

/-- The format `fmt.Sprintf("%s:%d", host, port)`. -/
def sprintfAddress (host : String) (port : Nat) : String := host ++ ":" ++ toString port

/-! ## The agent server -/

/-- The struct `AgentServer`; its `dockerClient` handle is the `Runtime`
threaded through the calls. -/
structure AgentServer where
  HostIp : String
  ExecBinaryPath : String
  deriving DecidableEq, Repr

/-- The message `proto.StorageConfig`. -/
structure StorageConfig where
  AccountName : String
  AccountKey : String
  Container : String
  deriving DecidableEq, Repr

/-- The message `proto.OpenContextReq`; `Ports` and `AutosaveInterval` are
`uint32` values. -/
structure OpenContextReq where
  StorageConfig : StorageConfig
  Image : String
  SourceWorktreeId : String
  WorktreeId : String
  MountPoint : String
  AutosaveInterval : Nat
  Ports : List Nat
  Env : List String
  ExecConfigRoots : List String
  deriving DecidableEq, Repr

/-- The message `proto.OpenContextResp_PortEndpoint`. -/
structure PortEndpoint where
  Port : Nat
  Endpoint : String
  deriving DecidableEq, Repr

/-- The message `proto.OpenContextResp`. -/
structure OpenContextResp where
  ContextId : String
  GrpcEndpoint : String
  PortEndpoints : List PortEndpoint
  deriving DecidableEq, Repr

/-- The errors the server builds with `grpc.Errorf(codes.Internal, ...)`, one
constructor per message text, carrying what the text is formatted from. -/
inductive RpcError where
  /-- Message "Cannot create container, err: " followed by the cause. -/
  | CannotCreate (cause : String)
  /-- Message "Cannot start container, err: " followed by the cause. -/
  | CannotStart (cause : String)
  /-- Message "Cannot inspect container, err: " followed by the cause. -/
  | CannotInspect (cause : String)
  /-- Message "Not enough port mapping, ports: " followed by the inspected port map. -/
  | NotEnoughPortMapping (ports : PortMap)
  /-- Message "GRPC connection is not available: " with the cause. -/
  | GrpcNotAvailable (cause : String)
  /-- Message "Cannot kill container, err: " followed by the cause. -/
  | CannotKill (cause : String)
  /-- Message "Cannot stop container, err: " followed by the cause. -/
  | CannotStop (cause : String)
  /-- Message "Cannot remove container, err: " followed by the cause. -/
  | CannotRemove (cause : String)
  /-- Message "Failed to close all contexts, err: " followed by the cause. -/
  | FailedCloseAll (cause : String)
  deriving DecidableEq, Repr

/-! ### Cleanup -/

/-- What the collaborators answer during one run of `Cleanup`: the error of
the list call if any, the answer to the forced remove of each id, and the
output of the mount command. -/
structure CleanupOutcomes where
  list : Option GoError
  remove : String → Option GoError
  mount : Except GoError String

/-- The error `errors.New("Has leftover lazytree mounts")`. -/
def leftoverMounts : GoError := { msg := "Has leftover lazytree mounts", netTimeout := false }

/-- The first loop of `Cleanup`: a forced remove of every listed container,
the answer of each being dropped. -/
def removeContainers (remove : String → Option GoError) : List String → Runtime → Runtime
  | [], rt => rt
  | container :: rest, rt =>
    removeContainers remove rest (ContainerRemove container true (remove container) rt).2

/-- The second loop of `Cleanup`, over the lines of the mount table. -/
def scanMountLines : List String → Option GoError
  | [] => none
  | line :: rest =>
    let cols := Split line ' '
    if cols.length < 3 then scanMountLines rest
    else if cols.head? = some "LazyTree" then some leftoverMounts
    else scanMountLines rest

/-- The method `AgentServer.Cleanup`; `none` is the nil error. -/
def Cleanup (o : CleanupOutcomes) (rt : Runtime) : Option GoError × Runtime :=
  match ContainerList o.list rt with
  | (.error err, rt1) => (some err, rt1)
  | (.ok containers, rt1) =>
    let rt2 := removeContainers o.remove containers rt1
    match mountOutput o.mount rt2 with
    | (.error err, rt3) => (some err, rt3)
    | (.ok output, rt3) => (scanMountLines (Split output '\n'), rt3)

/-- The method `AgentServer.CloseAll`. -/
def CloseAll (o : CleanupOutcomes) (rt : Runtime) : Except RpcError Unit × Runtime :=
  match Cleanup o rt with
  | (some err, rt1) => (.error (.FailedCloseAll err.msg), rt1)
  | (none, rt1) => (.ok (), rt1)

/-! ### OpenContext -/

/-- What the collaborators answer during one run of `OpenContext`.  Every call
is issued at most once on any path, `stop` and `remove` being the two calls of
the cleanup closure. -/
structure OpenOutcomes where
  create : Except GoError String
  start : Option GoError
  inspect : Except GoError PortMap
  dial : Option GoError
  stop : Option GoError
  remove : Option GoError

/-- The port set `exposedPorts`: the key of the control port, then one
assignment per requested port. -/
def exposedPorts (req : OpenContextReq) : PortSet :=
  req.Ports.foldl (fun m port => mapSet m (tcpPort port) ()) (mapSet [] (tcpPort 50000) ())

/-- The command line `cmd` of the inner process. -/
def cmd (req : OpenContextReq) : List String :=
  req.ExecConfigRoots.foldl (fun c root => c ++ ["-exec-config-root", root])
    ["/usr/bin/pv_exec", "-host", "0.0.0.0", "-p", "50000", "daemon",
     "-account-name", req.StorageConfig.AccountName,
     "-account-key", req.StorageConfig.AccountKey,
     "-container", req.StorageConfig.Container,
     "-source-worktree", req.SourceWorktreeId,
     "-worktree", req.WorktreeId,
     "-mount-point", req.MountPoint,
     "-autosave-interval", toString req.AutosaveInterval]

/-- The value `config` passed to the create call. -/
def config (req : OpenContextReq) : Config :=
  { Env := req.Env
    Image := req.Image
    ExposedPorts := exposedPorts req
    Volumes := mapSet [] "/usr/bin/pv_exec" ()
    Cmd := cmd req }

/-- The port map `portBindings`: the control port, then one assignment per
requested port, every value a single binding with only `HostIP` set. -/
def portBindings (s : AgentServer) (req : OpenContextReq) : PortMap :=
  req.Ports.foldl
    (fun m port => mapSet m (tcpPort port) [{ HostIP := s.HostIp, HostPort := "" }])
    (mapSet [] (tcpPort 50000) [{ HostIP := s.HostIp, HostPort := "" }])

/-- The value `hostConfig` passed to the create call. -/
def hostConfig (s : AgentServer) (req : OpenContextReq) : HostConfig :=
  { CapAdd := ["SYS_ADMIN", "MKNOD"]
    Binds := [s.ExecBinaryPath ++ ":/usr/bin/pv_exec:ro"]
    PortBindings := portBindings s req
    SecurityOpt := ["apparmor:unconfined"]
    Devices := [{ PathOnHost := "/dev/fuse", PathInContainer := "/dev/fuse",
                  CgroupPermissions := "rwm" }] }

/-- The closure `cleanupContainerFunc`: a stop with the default timeout, then
a remove without force, the answers of both being dropped. -/
def cleanupContainerFunc (containerId : String) (o : OpenOutcomes) (rt : Runtime) : Runtime :=
  let rt1 := (ContainerStop containerId none o.stop rt).2
  (ContainerRemove containerId false o.remove rt1).2

/-- The conversion `uint32(n)` of a non-negative `int`. -/
def uint32 (n : Nat) : Nat := n % 2 ^ 32

/-- One iteration of the loop over `json.NetworkSettings.Ports`, on the pair
`(grpcEndpoint, portEndpoints)`. -/
def collectStep (acc : String × List PortEndpoint) (entry : Port × List PortBinding) :
    String × List PortEndpoint :=
  match entry.2 with
  | [] => acc
  | binding :: _ =>
    if entry.1.Int = 50000 then
      (sprintfHostPort binding.HostIP binding.HostPort, acc.2)
    else
      (acc.1, acc.2 ++ [{ Port := uint32 entry.1.Int,
                          Endpoint := sprintfHostPort binding.HostIP binding.HostPort }])

/-- The whole loop over `json.NetworkSettings.Ports`, from `grpcEndpoint := ""`
and an empty `portEndpoints`. -/
def collectEndpoints (ports : PortMap) : String × List PortEndpoint :=
  ports.foldl collectStep ("", [])

/-- The method `AgentServer.OpenContext`. -/
def OpenContext (s : AgentServer) (req : OpenContextReq) (o : OpenOutcomes) (rt : Runtime) :
    Except RpcError OpenContextResp × Runtime :=
  match ContainerCreate (config req) (hostConfig s req) o.create rt with
  | (.error err, rt1) => (.error (.CannotCreate err.msg), rt1)
  | (.ok containerId, rt1) =>
    match ContainerStart containerId o.start rt1 with
    | (some err, rt2) => (.error (.CannotStart err.msg), cleanupContainerFunc containerId o rt2)
    | (none, rt2) =>
      match ContainerInspect containerId o.inspect rt2 with
      | (.error err, rt3) =>
        (.error (.CannotInspect err.msg), cleanupContainerFunc containerId o rt3)
      | (.ok ports, rt3) =>
        let grpcEndpoint := (collectEndpoints ports).1
        let portEndpoints := (collectEndpoints ports).2
        if grpcEndpoint = "" ∨ portEndpoints.length ≠ req.Ports.length then
          (.error (.NotEnoughPortMapping ports), cleanupContainerFunc containerId o rt3)
        else
          match Dial grpcEndpoint o.dial rt3 with
          | (some err, rt4) =>
            (.error (.GrpcNotAvailable err.msg), cleanupContainerFunc containerId o rt4)
          | (none, rt4) =>
            (.ok { ContextId := containerId, GrpcEndpoint := grpcEndpoint,
                   PortEndpoints := portEndpoints }, rt4)

/-! ### CloseContext -/

/-- What the runtime answers during one run of `CloseContext`. -/
structure CloseOutcomes where
  stop : Option GoError
  kill : Option GoError
  remove : Option GoError
  deriving DecidableEq, Repr

/-- The last step of `CloseContext`: the remove without force, its error
surfaced. -/
def closeRemove (ContextId : String) (o : CloseOutcomes) (rt : Runtime) :
    Except RpcError Unit × Runtime :=
  match ContainerRemove ContextId false o.remove rt with
  | (some err, rt1) => (.error (.CannotRemove err.msg), rt1)
  | (none, rt1) => (.ok (), rt1)

/-- The method `AgentServer.CloseContext`; the stop is given 60 seconds. -/
def CloseContext (ContextId : String) (o : CloseOutcomes) (rt : Runtime) :
    Except RpcError Unit × Runtime :=
  match ContainerStop ContextId (some 60) o.stop rt with
  | (some err, rt1) =>
    if err.netTimeout then
      match ContainerKill ContextId "SIGKILL" o.kill rt1 with
      | (some kerr, rt2) => (.error (.CannotKill kerr.msg), rt2)
      | (none, rt2) => closeRemove ContextId o rt2
    else (.error (.CannotStop err.msg), rt1)
  | (none, rt1) => closeRemove ContextId o rt1

/-! ### Start -/

/-- What the collaborators answer during one run of `Start`. -/
structure StartOutcomes where
  listen : Option GoError
  newEnvClient : Option GoError
  cleanup : CleanupOutcomes

/-- The constructor `NewAgentServer`: it builds the runtime client and runs
`Cleanup`. -/
def NewAgentServer (hostIp execBinaryPath : String) (o : StartOutcomes) (rt : Runtime) :
    Except GoError AgentServer × Runtime :=
  match o.newEnvClient with
  | some err => (.error err, rt.log .NewEnvClient)
  | none =>
    match Cleanup o.cleanup (rt.log .NewEnvClient) with
    | (some err, rt1) => (.error err, rt1)
    | (none, rt1) => (.ok { HostIp := hostIp, ExecBinaryPath := execBinaryPath }, rt1)

/-- The function `Start` of `server/api.go`; `none` is the nil error, returned
once `Serve` has been entered.  The bind `net.Listen` is the first statement;
`grpc.NewServer()` and the log line have no effect on the collaborators. -/
def Start (host : String) (port : Nat) (execBinaryPath : String) (o : StartOutcomes)
    (rt : Runtime) : Option GoError × Runtime :=
  match o.listen with
  | some err => (some err, rt.log (.Listen (sprintfAddress host port)))
  | none =>
    match NewAgentServer host execBinaryPath o (rt.log (.Listen (sprintfAddress host port))) with
    | (.error err, rt1) => (some err, rt1)
    | (.ok _, rt1) =>
      (none, (rt1.log .RegisterAgentServiceServer).log (.Serve (sprintfAddress host port)))

/-- The calls issued between the state `before` and the later state `after`. -/
def issued (before after : Runtime) : List Call := after.calls.drop before.calls.length

/-! ## Auxiliary definitions and sample values -/

/-- The user-port endpoint one entry of the inspected map contributes, if any. -/
def userEndpoint (entry : Port × List PortBinding) : Option PortEndpoint :=
  match entry.2 with
  | [] => none
  | binding :: _ =>
    if entry.1.Int = 50000 then none
    else some { Port := uint32 entry.1.Int,
                Endpoint := sprintfHostPort binding.HostIP binding.HostPort }

/-- Sample server: host address and path of the inner-agent executable. -/
def sampleServer : AgentServer := { HostIp := "10.0.0.1", ExecBinaryPath := "/opt/pv_exec" }

/-- Sample open request with the single user port 8080. -/
def sampleReq : OpenContextReq :=
  { StorageConfig := { AccountName := "acct", AccountKey := "key", Container := "bucket" }
    Image := "img"
    SourceWorktreeId := ""
    WorktreeId := "w1"
    MountPoint := "/data"
    AutosaveInterval := 30
    Ports := [8080]
    Env := []
    ExecConfigRoots := [] }

/-- Sample inspect answer: both exposed ports resolved to host bindings. -/
def sampleInspect : PortMap :=
  [(tcpPort 50000, [{ HostIP := "10.0.0.1", HostPort := "32768" }]),
   (tcpPort 8080, [{ HostIP := "10.0.0.1", HostPort := "32769" }])]

/-- Sample answers of a run in which every call succeeds. -/
def sampleOpenOk : OpenOutcomes :=
  { create := .ok "c1", start := none, inspect := .ok sampleInspect, dial := none,
    stop := none, remove := none }

/-- The response of the sample run. -/
def sampleResp : OpenContextResp :=
  { ContextId := "c1", GrpcEndpoint := "10.0.0.1:32768",
    PortEndpoints := [{ Port := 8080, Endpoint := "10.0.0.1:32769" }] }

/-- An empty world: no container listed, no call issued. -/
def emptyRuntime : Runtime := { containers := [], calls := [] }

/-- Sample answers of a run in which the inspect call fails and then both
calls of the cleanup closure fail as well. -/
def sampleOpenStuck : OpenOutcomes :=
  { create := .ok "c1", start := none,
    inspect := .error { msg := "inspect failed", netTimeout := false },
    dial := none,
    stop := some { msg := "cannot stop container", netTimeout := false },
    remove := some { msg := "cannot remove a running container", netTimeout := false } }

/-- Sample answers of a run whose start call fails and whose cleanup calls
succeed. -/
def sampleOpenStartFails : OpenOutcomes :=
  { create := .ok "c1",
    start := some { msg := "no such image", netTimeout := false },
    inspect := .ok sampleInspect, dial := none, stop := none, remove := none }

/-- Whether a call is a kill. -/
def Call.isKill : Call → Bool
  | .ContainerKill _ _ => true
  | _ => false

/-- Whether a call is a remove. -/
def Call.isRemove : Call → Bool
  | .ContainerRemove _ _ => true
  | _ => false

/-- A world that lists the one container "c1". -/
def oneContainer : Runtime := { containers := ["c1"], calls := [] }

/-- The stop error of a timed-out graceful stop. -/
def stopTimeout : GoError := { msg := "request timed out", netTimeout := true }

/-- Sample answers of a close whose stop times out and whose kill fails. -/
def sampleCloseKillFails : CloseOutcomes :=
  { stop := some stopTimeout,
    kill := some { msg := "cannot kill container", netTimeout := false },
    remove := none }

/-- Sample answers of a close whose stop times out and whose kill and remove
succeed. -/
def sampleCloseForced : CloseOutcomes :=
  { stop := some stopTimeout, kill := none, remove := none }

/-- Sample answers of a close whose stop fails with an error that is not a
timeout. -/
def sampleCloseStopFails : CloseOutcomes :=
  { stop := some { msg := "no such container", netTimeout := false },
    kill := none, remove := none }

/-- A mount table with a leftover dataset mount on its first line. -/
def sampleMountTable : String :=
  "LazyTree on /data type fuse.LazyTree (rw)\nproc on /proc type proc (rw)"

/-- Sample answers of a reconciliation that finds the leftover mount. -/
def sampleCleanupLeftover : CleanupOutcomes :=
  { list := none, remove := fun _ => none, mount := .ok sampleMountTable }

/-- A world that lists the two containers "a" and "b". -/
def twoContainers : Runtime := { containers := ["a", "b"], calls := [] }

/-- Sample answers of a reconciliation in which the forced remove of "a"
fails, every other remove succeeds and the mount table is empty. -/
def sampleCleanupRemoveFails : CleanupOutcomes :=
  { list := none
    remove := fun id =>
      if id = "a" then some { msg := "driver failed to remove", netTimeout := false } else none
    mount := .ok "" }

/-- Sample answers of a reconciliation in which every call succeeds and the
mount table is empty. -/
def sampleCleanupOk : CleanupOutcomes :=
  { list := none, remove := fun _ => none, mount := .ok "" }

/-- In a log, the call `a` is issued before the call `b`. -/
def precedes (a b : Call) (calls : List Call) : Prop :=
  ∃ l1 l2 l3, calls = l1 ++ a :: l2 ++ b :: l3

/-- Sample answers of a start in which every call succeeds and nothing is
left over. -/
def sampleStartOk : StartOutcomes :=
  { listen := none, newEnvClient := none, cleanup := sampleCleanupOk }

/-- Sample answers of a start whose bind fails. -/
def sampleStartBindFails : StartOutcomes :=
  { listen := some { msg := "address already in use", netTimeout := false },
    newEnvClient := none, cleanup := sampleCleanupOk }

/-- The key list of a Go map after an assignment to the key `k`. -/
def addKey {κ : Type} [DecidableEq κ] (ks : List κ) (k : κ) : List κ :=
  if k ∈ ks then ks else ks ++ [k]

/-- The inspect answer reports bindings only for ports of the exposed set the
request asked for, under one key per port. -/
def inspectWithinExposed (req : OpenContextReq) (ports : PortMap) : Prop :=
  (mapKeys ports).Nodup ∧ ∀ e ∈ ports, e.2 ≠ [] → e.1 ∈ mapKeys (exposedPorts req)

/-- The keys of the inspected entries that the loop turns into user-port
endpoints. -/
def userKeys (ports : PortMap) : List Port :=
  (ports.filter (fun e => decide (e.1.Int ≠ 50000 ∧ e.2 ≠ []))).map Prod.fst

/-- The sample request with its user port asked for twice. -/
def sampleReqDup : OpenContextReq := { sampleReq with Ports := [8080, 8080] }

/-- Sample inspect answer that resolves the control port and a user port 9090
nobody asked for. -/
def sampleInspectOther : PortMap :=
  [(tcpPort 50000, [{ HostIP := "10.0.0.1", HostPort := "32768" }]),
   (tcpPort 9090, [{ HostIP := "10.0.0.1", HostPort := "32770" }])]

/-- Sample answers of a run in which every call succeeds and the inspect
answer is `sampleInspectOther`. -/
def sampleOpenOther : OpenOutcomes :=
  { create := .ok "c1", start := none, inspect := .ok sampleInspectOther, dial := none,
    stop := none, remove := none }

/-- The sample request with the single user port 70000, which is not a port
number. -/
def sampleReqWide : OpenContextReq := { sampleReq with Ports := [70000] }

/-- Sample inspect answer that resolves the control port and the key of
port 70000. -/
def sampleInspectWide : PortMap :=
  [(tcpPort 50000, [{ HostIP := "10.0.0.1", HostPort := "32768" }]),
   (tcpPort 70000, [{ HostIP := "10.0.0.1", HostPort := "32771" }])]

/-- Sample answers of a run in which every call succeeds and the inspect
answer is `sampleInspectWide`. -/
def sampleOpenWide : OpenOutcomes :=
  { create := .ok "c1", start := none, inspect := .ok sampleInspectWide, dial := none,
    stop := none, remove := none }

/-! ## The port-collection loop -/

theorem sprintfHostPort_ne_empty (a b : String) : sprintfHostPort a b ≠ "" := by
  intro h
  have hlen := congrArg String.length h
  simp only [sprintfHostPort, String.length_append] at hlen
  have hcolon : ":".length = 1 := rfl
  have hempty : "".length = 0 := rfl
  omega

theorem foldl_collectStep_snd (ports : PortMap) (acc : String × List PortEndpoint) :
    (ports.foldl collectStep acc).2 = acc.2 ++ ports.filterMap userEndpoint := by
  induction ports generalizing acc with
  | nil => simp
  | cons e rest ih =>
    obtain ⟨p, bs⟩ := e
    cases bs with
    | nil => simp [List.foldl, collectStep, userEndpoint, ih]
    | cons b bs =>
      by_cases hp : p.Int = 50000
      · simp [List.foldl, collectStep, userEndpoint, ih, hp]
      · simp [List.foldl, collectStep, userEndpoint, ih, hp]

theorem foldl_collectStep_fst (ports : PortMap) (acc : String × List PortEndpoint) :
    (ports.foldl collectStep acc).1 ≠ "" ↔
      acc.1 ≠ "" ∨ ∃ e ∈ ports, e.1.Int = 50000 ∧ e.2 ≠ [] := by
  induction ports generalizing acc with
  | nil => simp
  | cons e rest ih =>
    obtain ⟨p, bs⟩ := e
    cases bs with
    | nil => simp [List.foldl, collectStep, ih]
    | cons b bs =>
      by_cases hp : p.Int = 50000
      · simp [List.foldl, collectStep, ih, hp, sprintfHostPort_ne_empty]
      · simp [List.foldl, collectStep, ih, hp]

theorem filterMap_userEndpoint_length (ports : PortMap) :
    (ports.filterMap userEndpoint).length =
      ports.countP (fun e => decide (e.1.Int ≠ 50000 ∧ e.2 ≠ [])) := by
  induction ports with
  | nil => simp
  | cons e rest ih =>
    obtain ⟨p, bs⟩ := e
    cases bs with
    | nil => simp [List.filterMap_cons, userEndpoint, ih]
    | cons b bs =>
      by_cases hp : p.Int = 50000
      · simp [List.filterMap_cons, userEndpoint, ih, hp]
      · simp [List.filterMap_cons, userEndpoint, ih, hp, List.countP_cons]

theorem collectEndpoints_fst (ports : PortMap) :
    (collectEndpoints ports).1 ≠ "" ↔ ∃ e ∈ ports, e.1.Int = 50000 ∧ e.2 ≠ [] := by
  simp [collectEndpoints, foldl_collectStep_fst]

theorem collectEndpoints_snd (ports : PortMap) :
    (collectEndpoints ports).2 = ports.filterMap userEndpoint := by
  simp [collectEndpoints, foldl_collectStep_snd]

/-- What a successful `OpenContext` says about the answers it was given. -/
theorem openContext_ok_inv (s : AgentServer) (req : OpenContextReq) (o : OpenOutcomes)
    (rt : Runtime) (resp : OpenContextResp) (h : (OpenContext s req o rt).1 = .ok resp) :
    ∃ id ports, o.create = .ok id ∧ o.start = none ∧ o.inspect = .ok ports ∧ o.dial = none ∧
      (collectEndpoints ports).1 ≠ "" ∧
      (collectEndpoints ports).2.length = req.Ports.length ∧
      resp = { ContextId := id, GrpcEndpoint := (collectEndpoints ports).1,
               PortEndpoints := (collectEndpoints ports).2 } := by
  obtain ⟨create, start, inspect, dial, stop, remove⟩ := o
  cases create with
  | error e => simp [OpenContext, ContainerCreate] at h
  | ok id =>
    cases start with
    | some e => simp [OpenContext, ContainerCreate, ContainerStart] at h
    | none =>
      cases inspect with
      | error e => simp [OpenContext, ContainerCreate, ContainerStart, ContainerInspect] at h
      | ok ports =>
        by_cases hbad : (collectEndpoints ports).1 = "" ∨
            (collectEndpoints ports).2.length ≠ req.Ports.length
        · simp [OpenContext, ContainerCreate, ContainerStart, ContainerInspect, hbad] at h
        · cases dial with
          | some e =>
            simp [OpenContext, ContainerCreate, ContainerStart, ContainerInspect, hbad, Dial] at h
          | none =>
            simp only [OpenContext, ContainerCreate, ContainerStart, ContainerInspect, hbad,
              Dial, if_false] at h
            push_neg at hbad
            refine ⟨id, ports, rfl, rfl, rfl, rfl, hbad.1, hbad.2, ?_⟩
            simpa using h.symm

/-! ## The cleanup closure of OpenContext -/

theorem cleanupContainerFunc_calls (id : String) (o : OpenOutcomes) (rt : Runtime) :
    (cleanupContainerFunc id o rt).calls =
      rt.calls ++ [.ContainerStop id none, .ContainerRemove id false] := by
  cases hr : o.remove <;>
    simp [cleanupContainerFunc, ContainerStop, ContainerRemove, Runtime.log, hr]

theorem cleanupContainerFunc_containers (id : String) (o : OpenOutcomes) (rt : Runtime) :
    (cleanupContainerFunc id o rt).containers =
      if o.remove = none then rt.containers.filter (fun c => decide (c ≠ id))
      else rt.containers := by
  cases hr : o.remove <;>
    simp [cleanupContainerFunc, ContainerStop, ContainerRemove, Runtime.log, hr]

/-- The shape of every run of `OpenContext` that got an id from the create
call and then failed: the final state is that of the cleanup closure, run on a
state which lists the old containers and the new id. -/
theorem openContext_error_shape (s : AgentServer) (req : OpenContextReq) (o : OpenOutcomes)
    (rt : Runtime) (id : String) (hc : o.create = .ok id)
    (herr : ∀ resp, (OpenContext s req o rt).1 ≠ .ok resp) :
    ∃ calls0 : List Call, (OpenContext s req o rt).2 =
      cleanupContainerFunc id o { containers := rt.containers ++ [id], calls := calls0 } := by
  obtain ⟨create, start, inspect, dial, stop, remove⟩ := o
  simp only at hc
  subst hc
  cases start with
  | some e => exact ⟨_, rfl⟩
  | none =>
    cases inspect with
    | error e => exact ⟨_, rfl⟩
    | ok ports =>
      by_cases hbad : (collectEndpoints ports).1 = "" ∨
          (collectEndpoints ports).2.length ≠ req.Ports.length
      · simp only [OpenContext, ContainerCreate, ContainerStart, ContainerInspect, hbad,
          if_true]
        exact ⟨_, rfl⟩
      · cases dial with
        | some e =>
          simp only [OpenContext, ContainerCreate, ContainerStart, ContainerInspect, hbad,
            Dial, if_false]
          exact ⟨_, rfl⟩
        | none =>
          exfalso
          refine herr { ContextId := id, GrpcEndpoint := (collectEndpoints ports).1,
                        PortEndpoints := (collectEndpoints ports).2 } ?_
          simp only [OpenContext, ContainerCreate, ContainerStart, ContainerInspect, hbad,
            Dial, if_false]

/-! ## OpenContext: endpoints of a success, cleanup of a failure -/

/-- C1: whenever `OpenContext` returns a success response, the control
endpoint in it is a non-empty string and it carries as many port endpoints as
ports were requested; and the port map the runtime answered the inspect call
with had a non-empty binding for port 50000 and exactly `len(in.Ports)` other
ports with a non-empty binding (so a map without either makes the call fail). -/
theorem openContext_success_endpoints (s : AgentServer) (req : OpenContextReq)
    (o : OpenOutcomes) (rt : Runtime) (resp : OpenContextResp)
    (h : (OpenContext s req o rt).1 = .ok resp) :
    resp.GrpcEndpoint ≠ "" ∧ resp.PortEndpoints.length = req.Ports.length ∧
      ∃ ports, o.inspect = .ok ports ∧
        (∃ e ∈ ports, e.1.Int = 50000 ∧ e.2 ≠ []) ∧
        ports.countP (fun e => decide (e.1.Int ≠ 50000 ∧ e.2 ≠ [])) = req.Ports.length := by
  obtain ⟨id, ports, -, -, hi, -, h1, h2, rfl⟩ := openContext_ok_inv s req o rt resp h
  refine ⟨h1, h2, ports, hi, (collectEndpoints_fst ports).1 h1, ?_⟩
  rw [← filterMap_userEndpoint_length, ← collectEndpoints_snd]
  exact h2

/-- C1 at the sample run: the open succeeds with the sample response, whose
control endpoint is non-empty and which has one endpoint for the one port. -/
theorem openContext_success_endpoints_witness :
    (OpenContext sampleServer sampleReq sampleOpenOk emptyRuntime).1 = .ok sampleResp ∧
      (sampleResp.GrpcEndpoint ≠ "" ∧
        sampleResp.PortEndpoints.length = sampleReq.Ports.length ∧
        ∃ ports, sampleOpenOk.inspect = .ok ports ∧
          (∃ e ∈ ports, e.1.Int = 50000 ∧ e.2 ≠ []) ∧
          ports.countP (fun e => decide (e.1.Int ≠ 50000 ∧ e.2 ≠ [])) =
            sampleReq.Ports.length) :=
  ⟨rfl, openContext_success_endpoints sampleServer sampleReq sampleOpenOk emptyRuntime
    sampleResp rfl⟩

/-- C2 fails as stated: the open is answered with a failing inspect, a failing
stop and a failing remove; it returns an error after the create succeeded and
the runtime still lists the created container "c1". -/
theorem openContext_failed_cleanup_leaves_container :
    (OpenContext sampleServer sampleReq sampleOpenStuck emptyRuntime).1 =
        .error (.CannotInspect "inspect failed") ∧
      sampleOpenStuck.create = .ok "c1" ∧
      (OpenContext sampleServer sampleReq sampleOpenStuck emptyRuntime).2.containers = ["c1"] ∧
      (OpenContext sampleServer sampleReq sampleOpenStuck emptyRuntime).2.calls =
        [.ContainerCreate (config sampleReq) (hostConfig sampleServer sampleReq),
         .ContainerStart "c1", .ContainerInspect "c1",
         .ContainerStop "c1" none, .ContainerRemove "c1" false] :=
  ⟨rfl, rfl, rfl, rfl⟩

/-- C2, amended: whenever `OpenContext` got an id from the create call and
then returns an error, the last two calls it issued are the stop and the
remove of that id, and the runtime lists the id afterwards exactly when that
remove reported an error; so the container is gone whenever the remove
succeeded, whatever the stop answered. -/
theorem openContext_failure_runs_cleanup (s : AgentServer) (req : OpenContextReq)
    (o : OpenOutcomes) (rt : Runtime) (id : String) (hc : o.create = .ok id)
    (herr : ∀ resp, (OpenContext s req o rt).1 ≠ .ok resp) :
    (∃ earlier, (OpenContext s req o rt).2.calls =
        earlier ++ [.ContainerStop id none, .ContainerRemove id false]) ∧
      (id ∉ (OpenContext s req o rt).2.containers ↔ o.remove = none) := by
  obtain ⟨calls0, hshape⟩ := openContext_error_shape s req o rt id hc herr
  rw [hshape, cleanupContainerFunc_calls, cleanupContainerFunc_containers]
  refine ⟨⟨calls0, rfl⟩, ?_⟩
  by_cases hr : o.remove = none
  · simp [hr, List.mem_filter]
  · simp [hr]

/-- C2, amended, at a run whose start fails and whose cleanup succeeds: the
stop and the remove close the log and "c1" is no longer listed. -/
theorem openContext_failure_runs_cleanup_witness :
    (∃ earlier, (OpenContext sampleServer sampleReq sampleOpenStartFails emptyRuntime).2.calls =
        earlier ++ [.ContainerStop "c1" none, .ContainerRemove "c1" false]) ∧
      ("c1" ∉ (OpenContext sampleServer sampleReq sampleOpenStartFails emptyRuntime).2.containers
        ↔ sampleOpenStartFails.remove = none) :=
  openContext_failure_runs_cleanup sampleServer sampleReq sampleOpenStartFails emptyRuntime "c1"
    rfl (fun _ h => by simp [OpenContext, ContainerCreate, ContainerStart,
      sampleOpenStartFails] at h)

/-! ## CloseContext: graceful stop, forced kill, remove -/

/-- The calls `CloseContext` issues and the containers it leaves, for every
combination of answers. -/
theorem closeContext_run (id : String) (o : CloseOutcomes) (rt : Runtime) :
    CloseContext id o rt =
      match o.stop with
      | none =>
        match o.remove with
        | none => (.ok (), { containers := rt.containers.filter (fun c => decide (c ≠ id)),
                             calls := rt.calls ++ [.ContainerStop id (some 60),
                               .ContainerRemove id false] })
        | some err => (.error (.CannotRemove err.msg),
            { rt with calls := rt.calls ++ [.ContainerStop id (some 60),
                .ContainerRemove id false] })
      | some err =>
        if err.netTimeout then
          match o.kill with
          | some kerr => (.error (.CannotKill kerr.msg),
              { rt with calls := rt.calls ++ [.ContainerStop id (some 60),
                  .ContainerKill id "SIGKILL"] })
          | none =>
            match o.remove with
            | none => (.ok (), { containers := rt.containers.filter (fun c => decide (c ≠ id)),
                                 calls := rt.calls ++ [.ContainerStop id (some 60),
                                   .ContainerKill id "SIGKILL", .ContainerRemove id false] })
            | some rerr => (.error (.CannotRemove rerr.msg),
                { rt with calls := rt.calls ++ [.ContainerStop id (some 60),
                    .ContainerKill id "SIGKILL", .ContainerRemove id false] })
        else (.error (.CannotStop err.msg),
            { rt with calls := rt.calls ++ [.ContainerStop id (some 60)] }) := by
  obtain ⟨stop, kill, remove⟩ := o
  cases stop with
  | none =>
    cases remove <;>
      simp [CloseContext, closeRemove, ContainerStop, ContainerRemove, Runtime.log]
  | some err =>
    by_cases ht : err.netTimeout = true
    · cases kill <;> cases remove <;>
        simp [CloseContext, closeRemove, ContainerStop, ContainerKill, ContainerRemove,
          Runtime.log, ht]
    · simp [CloseContext, ContainerStop, Runtime.log, ht]

/-- C3 fails as stated: the graceful stop of "c1" times out and the kill that
follows fails; `CloseContext` returns the kill error, issues no remove, and the
runtime still lists "c1". -/
theorem closeContext_timeout_kill_fails :
    sampleCloseKillFails.stop = some stopTimeout ∧ stopTimeout.netTimeout = true ∧
      (CloseContext "c1" sampleCloseKillFails oneContainer).1 =
        .error (.CannotKill "cannot kill container") ∧
      (CloseContext "c1" sampleCloseKillFails oneContainer).2.calls =
        [.ContainerStop "c1" (some 60), .ContainerKill "c1" "SIGKILL"] ∧
      (CloseContext "c1" sampleCloseKillFails oneContainer).2.containers = ["c1"] :=
  ⟨rfl, rfl, rfl, rfl, rfl⟩

/-- C3, amended: when the graceful stop reports a timeout, `CloseContext`
issues the stop and then a SIGKILL for that id; the remove of the id follows
exactly when the kill succeeded, a failing kill making the call return the
"Cannot kill container" error; the call returns success exactly when the kill
and the remove both succeeded, and then the runtime no longer lists the id. -/
theorem closeContext_timeout_forced_kill (id : String) (o : CloseOutcomes) (rt : Runtime)
    (err : GoError) (hstop : o.stop = some err) (htimeout : err.netTimeout = true) :
    (CloseContext id o rt).2.calls =
        rt.calls ++ [.ContainerStop id (some 60), .ContainerKill id "SIGKILL"] ++
          (if o.kill = none then [.ContainerRemove id false] else []) ∧
      ((CloseContext id o rt).1 = .ok () ↔ o.kill = none ∧ o.remove = none) ∧
      ((CloseContext id o rt).1 = .ok () → id ∉ (CloseContext id o rt).2.containers) ∧
      (∀ kerr, o.kill = some kerr →
        (CloseContext id o rt).1 = .error (.CannotKill kerr.msg)) := by
  rw [closeContext_run]
  obtain ⟨stop, kill, remove⟩ := o
  simp only at hstop
  subst hstop
  cases kill <;> cases remove <;> simp [htimeout, List.mem_filter]

/-- C3, amended, at a close of "c1" whose stop times out and whose kill and
remove succeed: stop, kill, remove are issued and "c1" is gone. -/
theorem closeContext_timeout_forced_kill_witness :
    (CloseContext "c1" sampleCloseForced oneContainer).2.calls =
        oneContainer.calls ++ [.ContainerStop "c1" (some 60), .ContainerKill "c1" "SIGKILL"] ++
          (if sampleCloseForced.kill = none then [.ContainerRemove "c1" false] else []) ∧
      ((CloseContext "c1" sampleCloseForced oneContainer).1 = .ok () ↔
        sampleCloseForced.kill = none ∧ sampleCloseForced.remove = none) ∧
      ((CloseContext "c1" sampleCloseForced oneContainer).1 = .ok () →
        "c1" ∉ (CloseContext "c1" sampleCloseForced oneContainer).2.containers) ∧
      (∀ kerr, sampleCloseForced.kill = some kerr →
        (CloseContext "c1" sampleCloseForced oneContainer).1 =
          .error (.CannotKill kerr.msg)) :=
  closeContext_timeout_forced_kill "c1" sampleCloseForced oneContainer stopTimeout rfl rfl

/-- C8: in every run of `CloseContext` the calls issued are the stop alone
when the stop fails with an error that is not a timeout, the stop and the
remove when the stop succeeds, and the stop followed by a SIGKILL when the stop
times out, the remove coming after the kill exactly when the kill succeeded.
So a remove is issued if and only if the stop succeeded, or the stop timed out
and the SIGKILL that was then issued succeeded; a kill is issued if and only if
the stop timed out, and a failing kill makes the call return the kill error
with no remove; a stop failing with an error that is not a timeout makes the
call return an error after the stop alone, with no kill and no remove; and
whenever a remove is issued, the call succeeds exactly when that remove
succeeds. -/
theorem closeContext_remove_iff (id : String) (o : CloseOutcomes) (rt : Runtime) :
    ((issued rt (CloseContext id o rt).2).any Call.isRemove = true ↔
        (o.stop = none ∨ ∃ err, o.stop = some err ∧ err.netTimeout = true ∧ o.kill = none)) ∧
      (∀ err, o.stop = some err → err.netTimeout = false →
        (CloseContext id o rt).1 = .error (.CannotStop err.msg) ∧
        issued rt (CloseContext id o rt).2 = [.ContainerStop id (some 60)]) ∧
      ((issued rt (CloseContext id o rt).2).any Call.isRemove = true →
        .ContainerRemove id false ∈ issued rt (CloseContext id o rt).2 ∧
        ((CloseContext id o rt).1 = .ok () ↔ o.remove = none)) ∧
      issued rt (CloseContext id o rt).2 =
        (match o.stop with
         | none => [.ContainerStop id (some 60), .ContainerRemove id false]
         | some err =>
           if err.netTimeout then
             .ContainerStop id (some 60) :: .ContainerKill id "SIGKILL" ::
               (if o.kill = none then [.ContainerRemove id false] else [])
           else [.ContainerStop id (some 60)]) ∧
      ((issued rt (CloseContext id o rt).2).any Call.isKill = true ↔
        ∃ err, o.stop = some err ∧ err.netTimeout = true) ∧
      (∀ err kerr, o.stop = some err → err.netTimeout = true → o.kill = some kerr →
        (CloseContext id o rt).1 = .error (.CannotKill kerr.msg) ∧
        issued rt (CloseContext id o rt).2 =
          [.ContainerStop id (some 60), .ContainerKill id "SIGKILL"]) := by
  rw [closeContext_run]
  obtain ⟨stop, kill, remove⟩ := o
  cases stop with
  | none => cases remove <;> simp [issued, Call.isRemove, Call.isKill]
  | some err =>
    by_cases ht : err.netTimeout = true
    · cases kill <;> cases remove <;> simp [issued, Call.isRemove, Call.isKill, ht]
    · simp only [Bool.not_eq_true] at ht
      simp [issued, Call.isRemove, Call.isKill, ht]
      intro e k he hte
      subst he
      rw [ht] at hte
      cases hte

/-- C8 at three closes of "c1": a stop that times out followed by a kill and a
remove that succeed issues stop, SIGKILL, remove; a stop that times out
followed by a failing kill returns the kill error after stop and SIGKILL; a
stop failing with an error that is not a timeout returns the stop error after
the stop alone. -/
theorem closeContext_remove_iff_witness :
    issued oneContainer (CloseContext "c1" sampleCloseForced oneContainer).2 =
        [.ContainerStop "c1" (some 60), .ContainerKill "c1" "SIGKILL",
         .ContainerRemove "c1" false] ∧
      ((CloseContext "c1" sampleCloseKillFails oneContainer).1 =
          .error (.CannotKill "cannot kill container") ∧
        issued oneContainer (CloseContext "c1" sampleCloseKillFails oneContainer).2 =
          [.ContainerStop "c1" (some 60), .ContainerKill "c1" "SIGKILL"]) ∧
      ((CloseContext "c1" sampleCloseStopFails oneContainer).1 =
          .error (.CannotStop "no such container") ∧
        issued oneContainer (CloseContext "c1" sampleCloseStopFails oneContainer).2 =
          [.ContainerStop "c1" (some 60)]) :=
  ⟨(closeContext_remove_iff "c1" sampleCloseForced oneContainer).2.2.2.1,
    (closeContext_remove_iff "c1" sampleCloseKillFails oneContainer).2.2.2.2.2
      stopTimeout { msg := "cannot kill container", netTimeout := false } rfl rfl rfl,
    (closeContext_remove_iff "c1" sampleCloseStopFails oneContainer).2.1
      { msg := "no such container", netTimeout := false } rfl rfl⟩

/-! ## Cleanup: forced removes and the mount table -/

theorem removeContainers_calls (remove : String → Option GoError) (cs : List String)
    (rt : Runtime) :
    (removeContainers remove cs rt).calls =
      rt.calls ++ cs.map (fun c => Call.ContainerRemove c true) := by
  induction cs generalizing rt with
  | nil => simp [removeContainers]
  | cons c rest ih =>
    cases hr : remove c <;>
      simp [removeContainers, ih, ContainerRemove, Runtime.log, hr]

theorem removeContainers_containers (remove : String → Option GoError) (cs : List String)
    (rt : Runtime) :
    (removeContainers remove cs rt).containers =
      rt.containers.filter (fun x => !(decide (x ∈ cs) && (remove x).isNone)) := by
  induction cs generalizing rt with
  | nil => simp [removeContainers]
  | cons c rest ih =>
    cases hr : remove c with
    | none =>
      simp only [removeContainers, ih, ContainerRemove, hr, List.filter_filter]
      apply List.filter_congr
      intro x _
      by_cases hx : x = c
      · subst hx; simp [hr]
      · simp [hx]
    | some e =>
      simp only [removeContainers, ih, ContainerRemove, hr, Runtime.log]
      apply List.filter_congr
      intro x _
      by_cases hx : x = c
      · subst hx; simp [hr]
      · simp [hx]

theorem scanMountLines_eq (lines : List String) :
    scanMountLines lines =
      if ∃ line ∈ lines, 3 ≤ (Split line ' ').length ∧
          (Split line ' ').head? = some "LazyTree"
      then some leftoverMounts else none := by
  induction lines with
  | nil => simp [scanMountLines]
  | cons line rest ih =>
    by_cases h3 : (Split line ' ').length < 3
    · have h3' : ¬ 3 ≤ (Split line ' ').length := by omega
      simp [scanMountLines, h3, h3', ih]
    · have h3' : 3 ≤ (Split line ' ').length := by omega
      by_cases hd : (Split line ' ').head? = some "LazyTree"
      · simp [scanMountLines, h3, h3', hd]
      · simp [scanMountLines, h3, h3', hd, ih]

/-- The result and the final state of every run of `Cleanup` whose list call
and mount command succeed. -/
theorem cleanup_run (o : CleanupOutcomes) (rt : Runtime) (output : String)
    (hl : o.list = none) (hm : o.mount = .ok output) :
    Cleanup o rt =
      (scanMountLines (Split output '\n'),
       { containers := rt.containers.filter (fun x => (o.remove x).isSome),
         calls := rt.calls ++ [.ContainerList] ++
           rt.containers.map (fun c => Call.ContainerRemove c true) ++ [.Mount] }) := by
  simp only [Cleanup, ContainerList, hl, mountOutput, hm, Runtime.log, Prod.mk.injEq, true_and]
  rw [Runtime.mk.injEq]
  constructor
  · rw [removeContainers_containers]
    apply List.filter_congr
    intro x hx
    cases hr : o.remove x <;> simp [hx]
  · rw [removeContainers_calls]

/-- C5: when the container listing and the mount command succeed, `Cleanup`
returns the error "Has leftover lazytree mounts" if and only if some line of
the mount table (the text cut at newlines) has at least three space-separated
fields, the first of which is "LazyTree"; and it returns no error otherwise. -/
theorem cleanup_leftover_mounts_iff (o : CleanupOutcomes) (rt : Runtime) (output : String)
    (hl : o.list = none) (hm : o.mount = .ok output) :
    ((Cleanup o rt).1 = some leftoverMounts ↔
        ∃ line ∈ Split output '\n', 3 ≤ (Split line ' ').length ∧
          (Split line ' ').head? = some "LazyTree") ∧
      ((¬ ∃ line ∈ Split output '\n', 3 ≤ (Split line ' ').length ∧
          (Split line ' ').head? = some "LazyTree") → (Cleanup o rt).1 = none) := by
  rw [cleanup_run o rt output hl hm, scanMountLines_eq]
  by_cases h : ∃ line ∈ Split output '\n', 3 ≤ (Split line ' ').length ∧
      (Split line ' ').head? = some "LazyTree"
  · simp only [h, if_true, true_iff, not_true_eq_false, false_implies, and_self]
  · simp only [h, if_false, iff_false, not_false_eq_true, true_implies, and_true]
    simp

/-- C5 at the sample mount table: the listing and the mount command succeed
and `Cleanup` returns the leftover-mount error. -/
theorem cleanup_leftover_mounts_iff_witness :
    (Cleanup sampleCleanupLeftover emptyRuntime).1 = some leftoverMounts ∧
      ((Cleanup sampleCleanupLeftover emptyRuntime).1 = some leftoverMounts ↔
        ∃ line ∈ Split sampleMountTable '\n', 3 ≤ (Split line ' ').length ∧
          (Split line ' ').head? = some "LazyTree") ∧
      ((¬ ∃ line ∈ Split sampleMountTable '\n', 3 ≤ (Split line ' ').length ∧
          (Split line ' ').head? = some "LazyTree") →
        (Cleanup sampleCleanupLeftover emptyRuntime).1 = none) :=
  ⟨by decide, cleanup_leftover_mounts_iff sampleCleanupLeftover emptyRuntime sampleMountTable
    rfl rfl⟩

/-- C7 fails as stated: with "a" and "b" listed and the forced remove of "a"
answered with an error, `Cleanup` returns no error and the runtime still lists
"a". -/
theorem cleanup_ok_leaves_container :
    (Cleanup sampleCleanupRemoveFails twoContainers).1 = none ∧
      (Cleanup sampleCleanupRemoveFails twoContainers).2.containers = ["a"] ∧
      (Cleanup sampleCleanupRemoveFails twoContainers).2.calls =
        [.ContainerList, .ContainerRemove "a" true, .ContainerRemove "b" true, .Mount] := by
  decide

/-- C7, amended: whenever `Cleanup` returns without error it has issued, after
the list call, one forced remove for every container the runtime listed, in
list order, and then the mount command; afterwards the runtime lists exactly
the containers whose remove reported an error, so it lists none when every
remove succeeded.  `CloseAll` succeeds exactly when `Cleanup` returns without
error and leaves the same state. -/
theorem cleanup_ok_removes_listed (o : CleanupOutcomes) (rt : Runtime)
    (h : (Cleanup o rt).1 = none) :
    (Cleanup o rt).2.calls = rt.calls ++ [.ContainerList] ++
        rt.containers.map (fun c => Call.ContainerRemove c true) ++ [.Mount] ∧
      (Cleanup o rt).2.containers = rt.containers.filter (fun c => (o.remove c).isSome) ∧
      ((∀ c ∈ rt.containers, o.remove c = none) → (Cleanup o rt).2.containers = []) ∧
      (CloseAll o rt).1 = .ok () ∧ (CloseAll o rt).2 = (Cleanup o rt).2 := by
  have hclose : (CloseAll o rt).1 = .ok () ∧ (CloseAll o rt).2 = (Cleanup o rt).2 := by
    unfold CloseAll
    generalize Cleanup o rt = r at h ⊢
    obtain ⟨e, rt1⟩ := r
    simp only at h
    subst h
    exact ⟨rfl, rfl⟩
  cases hl : o.list with
  | some e => simp [Cleanup, ContainerList, hl] at h
  | none =>
    cases hm : o.mount with
    | error e => simp [Cleanup, ContainerList, hl, mountOutput, hm] at h
    | ok output =>
      have hrun := cleanup_run o rt output hl hm
      refine ⟨by rw [hrun], by rw [hrun], ?_, hclose⟩
      intro hall
      rw [hrun]
      simp only [List.filter_eq_nil_iff]
      intro c hc
      simp [hall c hc]

/-- C7, amended, at a reconciliation over "a" and "b" in which every call
succeeds: both are removed and none is listed afterwards. -/
theorem cleanup_ok_removes_listed_witness :
    (Cleanup sampleCleanupOk twoContainers).2.calls = twoContainers.calls ++ [.ContainerList] ++
        twoContainers.containers.map (fun c => Call.ContainerRemove c true) ++ [.Mount] ∧
      (Cleanup sampleCleanupOk twoContainers).2.containers =
        twoContainers.containers.filter (fun c => (sampleCleanupOk.remove c).isSome) ∧
      ((∀ c ∈ twoContainers.containers, sampleCleanupOk.remove c = none) →
        (Cleanup sampleCleanupOk twoContainers).2.containers = []) ∧
      (CloseAll sampleCleanupOk twoContainers).1 = .ok () ∧
      (CloseAll sampleCleanupOk twoContainers).2 = (Cleanup sampleCleanupOk twoContainers).2 :=
  cleanup_ok_removes_listed sampleCleanupOk twoContainers (by decide)

/-! ## Start: bind, reconcile, serve -/

/-- The calls of any run of `Cleanup` extend the log by the list call, forced
removes and the mount command only. -/
theorem cleanup_calls (o : CleanupOutcomes) (rt : Runtime) :
    ∃ extra, (Cleanup o rt).2.calls = rt.calls ++ .ContainerList :: extra ∧
      ∀ c ∈ extra, c = .Mount ∨ ∃ id, c = .ContainerRemove id true := by
  cases hl : o.list with
  | some e => exact ⟨[], by simp [Cleanup, ContainerList, hl, Runtime.log], by simp⟩
  | none =>
    cases hm : o.mount with
    | error e =>
      refine ⟨rt.containers.map (fun c => Call.ContainerRemove c true) ++ [.Mount], ?_, ?_⟩
      · simp [Cleanup, ContainerList, hl, mountOutput, hm, Runtime.log, removeContainers_calls]
      · intro c hc
        simp only [List.mem_append, List.mem_map, List.mem_singleton] at hc
        rcases hc with ⟨id, -, rfl⟩ | rfl
        · exact Or.inr ⟨id, rfl⟩
        · exact Or.inl rfl
    | ok output =>
      refine ⟨rt.containers.map (fun c => Call.ContainerRemove c true) ++ [.Mount], ?_, ?_⟩
      · simp [cleanup_run o rt output hl hm]
      · intro c hc
        simp only [List.mem_append, List.mem_map, List.mem_singleton] at hc
        rcases hc with ⟨id, -, rfl⟩ | rfl
        · exact Or.inr ⟨id, rfl⟩
        · exact Or.inl rfl

/-- C6 fails as stated: in the start in which every call succeeds, the bind
`net.Listen` is the first effect and the list call that opens `Cleanup` comes
two effects later, so the bind precedes the reconciliation. -/
theorem start_binds_before_cleanup :
    (Start "0.0.0.0" 8080 "/opt/pv_exec" sampleStartOk emptyRuntime).2.calls =
        [.Listen "0.0.0.0:8080", .NewEnvClient, .ContainerList, .Mount,
         .RegisterAgentServiceServer, .Serve "0.0.0.0:8080"] ∧
      precedes (.Listen "0.0.0.0:8080") .ContainerList
        (Start "0.0.0.0" 8080 "/opt/pv_exec" sampleStartOk emptyRuntime).2.calls :=
  ⟨by decide, [], [.NewEnvClient], [.Mount, .RegisterAgentServiceServer, .Serve "0.0.0.0:8080"],
    by decide⟩

/-- C6, amended: in every execution of `Start` the bind `net.Listen` is the
first effect; nothing else is done when the bind fails, so reconciliation runs
only after a successful bind; and the service is registered and `Serve` is
entered only after `Cleanup` has returned without error, the effects then being
the bind, the client construction, the calls of `Cleanup`, the registration
and `Serve`, in this order. -/
theorem start_serves_after_cleanup (host : String) (port : Nat) (execBinaryPath : String)
    (o : StartOutcomes) (rt : Runtime) :
    ∃ rest, issued rt (Start host port execBinaryPath o rt).2 =
        .Listen (sprintfAddress host port) :: rest ∧
      (o.listen ≠ none → rest = []) ∧
      (.Serve (sprintfAddress host port) ∈ rest →
        o.listen = none ∧ o.newEnvClient = none ∧
        (Cleanup o.cleanup ((rt.log (.Listen (sprintfAddress host port))).log
          .NewEnvClient)).1 = none ∧
        rest = .NewEnvClient ::
          issued ((rt.log (.Listen (sprintfAddress host port))).log .NewEnvClient)
            (Cleanup o.cleanup ((rt.log (.Listen (sprintfAddress host port))).log
              .NewEnvClient)).2 ++
          [.RegisterAgentServiceServer, .Serve (sprintfAddress host port)]) := by
  obtain ⟨listen, newEnvClient, cleanup⟩ := o
  cases listen with
  | some e => exact ⟨[], by simp [Start, issued, Runtime.log], by simp, by simp⟩
  | none =>
    cases newEnvClient with
    | some e =>
      exact ⟨[.NewEnvClient], by simp [Start, NewAgentServer, issued, Runtime.log], by simp,
        by simp⟩
    | none =>
      obtain ⟨extra, hcalls, hextra⟩ := cleanup_calls cleanup
        ((rt.log (.Listen (sprintfAddress host port))).log .NewEnvClient)
      have hnoserve : Call.Serve (sprintfAddress host port) ∉ extra := by
        intro hmem
        rcases hextra _ hmem with h | ⟨id, h⟩ <;> cases h
      cases hres : Cleanup cleanup
          ((rt.log (.Listen (sprintfAddress host port))).log .NewEnvClient) with
      | mk err rt1 =>
        rw [hres] at hcalls
        simp only [Runtime.log, List.append_assoc, List.singleton_append] at hcalls
        cases err with
        | some e =>
          refine ⟨.NewEnvClient :: .ContainerList :: extra, ?_, by simp, ?_⟩
          · simp only [Start, NewAgentServer, hres]
            simp [issued, hcalls]
          · intro hmem
            simp only [List.mem_cons] at hmem
            rcases hmem with h | h | h
            · cases h
            · cases h
            · exact absurd h hnoserve
        | none =>
          refine ⟨.NewEnvClient :: .ContainerList :: extra ++
            [.RegisterAgentServiceServer, .Serve (sprintfAddress host port)], ?_, by simp, ?_⟩
          · simp only [Start, NewAgentServer, hres]
            simp [issued, hcalls, Runtime.log]
          · intro _
            refine ⟨rfl, rfl, rfl, ?_⟩
            simp [issued, hcalls, Runtime.log]

/-- C6, amended, at a start whose bind fails: the bind is the only effect. -/
theorem start_serves_after_cleanup_witness :
    issued emptyRuntime (Start "0.0.0.0" 8080 "/opt/pv_exec" sampleStartBindFails
      emptyRuntime).2 = [.Listen "0.0.0.0:8080"] := by
  obtain ⟨rest, hcalls, hfail, -⟩ :=
    start_serves_after_cleanup "0.0.0.0" 8080 "/opt/pv_exec" sampleStartBindFails emptyRuntime
  rw [hcalls, hfail (by simp [sampleStartBindFails])]
  decide

/-! ## The container specification built by OpenContext -/

theorem mapKeys_mapSet {κ ν : Type} [DecidableEq κ] (m : List (κ × ν)) (k : κ) (v : ν) :
    mapKeys (mapSet m k v) = addKey (mapKeys m) k := by
  induction m with
  | nil => simp [mapSet, mapKeys, addKey]
  | cons e rest ih =>
    obtain ⟨k', v'⟩ := e
    by_cases hk : k' = k
    · subst hk
      simp [mapSet, mapKeys, addKey]
    · have hk' : ¬ k = k' := fun h => hk h.symm
      simp only [mapSet, hk, if_false]
      simp only [mapKeys, List.map_cons] at ih ⊢
      rw [ih]
      by_cases hmem : k ∈ List.map Prod.fst rest
      · simp [addKey, hmem]
      · simp [addKey, hmem, hk']

theorem mem_mapSet {κ ν : Type} [DecidableEq κ] (m : List (κ × ν)) (k : κ) (v : ν)
    (e : κ × ν) (he : e ∈ mapSet m k v) : e = (k, v) ∨ e ∈ m := by
  induction m with
  | nil => simpa [mapSet] using he
  | cons e' rest ih =>
    obtain ⟨k', v'⟩ := e'
    by_cases hk : k' = k
    · simp only [mapSet, hk, if_true, List.mem_cons] at he
      rcases he with h | h
      · exact Or.inl h
      · exact Or.inr (List.mem_cons_of_mem _ h)
    · simp only [mapSet, hk, if_false, List.mem_cons] at he
      rcases he with h | h
      · exact Or.inr (by simp [h])
      · rcases ih h with h' | h'
        · exact Or.inl h'
        · exact Or.inr (List.mem_cons_of_mem _ h')

theorem mem_addKey {κ : Type} [DecidableEq κ] (ks : List κ) (k x : κ) :
    x ∈ addKey ks k ↔ x ∈ ks ∨ x = k := by
  by_cases hk : k ∈ ks
  · simp only [addKey, hk, if_true]
    constructor
    · exact Or.inl
    · rintro (h | rfl)
      · exact h
      · exact hk
  · simp [addKey, hk]

theorem nodup_addKey {κ : Type} [DecidableEq κ] (ks : List κ) (k : κ) (h : ks.Nodup) :
    (addKey ks k).Nodup := by
  by_cases hk : k ∈ ks
  · simpa [addKey, hk] using h
  · simp only [addKey, hk, if_false]
    exact List.Nodup.append h (List.nodup_singleton k) (by simpa using hk)

theorem mapKeys_foldl_mapSet {κ ν α : Type} [DecidableEq κ] (f : α → κ) (v : ν)
    (ps : List α) (m : List (κ × ν)) :
    mapKeys (ps.foldl (fun m p => mapSet m (f p) v) m) =
      ps.foldl (fun ks p => addKey ks (f p)) (mapKeys m) := by
  induction ps generalizing m with
  | nil => rfl
  | cons p rest ih => simp only [List.foldl_cons, ih, mapKeys_mapSet]

theorem mem_foldl_addKey {κ α : Type} [DecidableEq κ] (f : α → κ) (ps : List α)
    (ks : List κ) (x : κ) :
    x ∈ ps.foldl (fun ks p => addKey ks (f p)) ks ↔ x ∈ ks ∨ ∃ p ∈ ps, x = f p := by
  induction ps generalizing ks with
  | nil => simp
  | cons p rest ih =>
    simp only [List.foldl_cons, ih, mem_addKey, List.mem_cons]
    constructor
    · rintro ((h | h) | ⟨q, hq, h⟩)
      · exact Or.inl h
      · exact Or.inr ⟨p, Or.inl rfl, h⟩
      · exact Or.inr ⟨q, Or.inr hq, h⟩
    · rintro (h | ⟨q, rfl | hq, h⟩)
      · exact Or.inl (Or.inl h)
      · exact Or.inl (Or.inr h)
      · exact Or.inr ⟨q, hq, h⟩

theorem nodup_foldl_addKey {κ α : Type} [DecidableEq κ] (f : α → κ) (ps : List α)
    (ks : List κ) (h : ks.Nodup) : (ps.foldl (fun ks p => addKey ks (f p)) ks).Nodup := by
  induction ps generalizing ks with
  | nil => exact h
  | cons p rest ih => exact ih _ (nodup_addKey ks (f p) h)

theorem length_foldl_addKey {κ α : Type} [DecidableEq κ] (f : α → κ) (ps : List α)
    (ks : List κ) (hps : (ps.map f).Nodup) (hnew : ∀ p ∈ ps, f p ∉ ks) :
    (ps.foldl (fun ks p => addKey ks (f p)) ks).length = ks.length + ps.length := by
  induction ps generalizing ks with
  | nil => simp
  | cons p rest ih =>
    have hp : f p ∉ ks := hnew p (List.mem_cons_self _ _)
    rw [List.map_cons, List.nodup_cons] at hps
    rw [List.foldl_cons, ih _ hps.2]
    · simp [addKey, hp]; omega
    · intro q hq hmem
      rcases (mem_addKey ks (f p) (f q)).1 hmem with h | h
      · exact hnew q (List.mem_cons_of_mem _ hq) h
      · exact hps.1 (h ▸ List.mem_map_of_mem f hq)

theorem tcpPort_injective : Function.Injective tcpPort := by
  intro p q h
  simpa [tcpPort] using h

theorem mapKeys_exposedPorts (req : OpenContextReq) :
    mapKeys (exposedPorts req) =
      req.Ports.foldl (fun ks p => addKey ks (tcpPort p)) [tcpPort 50000] := by
  rw [exposedPorts, mapKeys_foldl_mapSet, mapKeys_mapSet]
  rfl

theorem mapKeys_portBindings (s : AgentServer) (req : OpenContextReq) :
    mapKeys (portBindings s req) =
      req.Ports.foldl (fun ks p => addKey ks (tcpPort p)) [tcpPort 50000] := by
  rw [portBindings, mapKeys_foldl_mapSet, mapKeys_mapSet]
  rfl

theorem mem_mapKeys_exposedPorts (req : OpenContextReq) (k : Port) :
    k ∈ mapKeys (exposedPorts req) ↔ k = tcpPort 50000 ∨ ∃ p ∈ req.Ports, k = tcpPort p := by
  simp [mapKeys_exposedPorts, mem_foldl_addKey]

theorem portBindings_values (s : AgentServer) (req : OpenContextReq) :
    ∀ e ∈ portBindings s req, e.2 = [{ HostIP := s.HostIp, HostPort := "" }] := by
  unfold portBindings
  generalize hm : mapSet ([] : PortMap) (tcpPort 50000)
    [{ HostIP := s.HostIp, HostPort := "" }] = m
  have hinit : ∀ e ∈ m, e.2 = [{ HostIP := s.HostIp, HostPort := "" }] := by
    intro e he
    rw [← hm] at he
    rcases mem_mapSet _ _ _ e he with h | h
    · rw [h]
    · cases h
  clear hm
  induction req.Ports generalizing m with
  | nil => exact hinit
  | cons p rest ih =>
    apply ih
    intro e he
    rcases mem_mapSet _ _ _ e he with h | h
    · rw [h]
    · exact hinit e h

theorem openContext_first_call (s : AgentServer) (req : OpenContextReq) (o : OpenOutcomes)
    (rt : Runtime) :
    ∃ later, (OpenContext s req o rt).2.calls =
      rt.calls ++ .ContainerCreate (config req) (hostConfig s req) :: later := by
  obtain ⟨create, start, inspect, dial, stop, remove⟩ := o
  cases create with
  | error e => exact ⟨[], by simp [OpenContext, ContainerCreate, Runtime.log]⟩
  | ok id =>
    cases start with
    | some e =>
      exact ⟨[.ContainerStart id, .ContainerStop id none, .ContainerRemove id false], by
        simp [OpenContext, ContainerCreate, ContainerStart, cleanupContainerFunc_calls,
          Runtime.log]⟩
    | none =>
      cases inspect with
      | error e =>
        exact ⟨[.ContainerStart id, .ContainerInspect id, .ContainerStop id none,
          .ContainerRemove id false], by
          simp [OpenContext, ContainerCreate, ContainerStart, ContainerInspect,
            cleanupContainerFunc_calls, Runtime.log]⟩
      | ok ports =>
        by_cases hbad : (collectEndpoints ports).1 = "" ∨
            (collectEndpoints ports).2.length ≠ req.Ports.length
        · exact ⟨[.ContainerStart id, .ContainerInspect id, .ContainerStop id none,
            .ContainerRemove id false], by
            simp only [OpenContext, ContainerCreate, ContainerStart, ContainerInspect, hbad,
              if_true, cleanupContainerFunc_calls, Runtime.log]
            simp⟩
        · cases dial with
          | some e =>
            exact ⟨[.ContainerStart id, .ContainerInspect id, .Dial (collectEndpoints ports).1,
              .ContainerStop id none, .ContainerRemove id false], by
              simp only [OpenContext, ContainerCreate, ContainerStart, ContainerInspect, hbad,
                if_false, Dial, cleanupContainerFunc_calls, Runtime.log]
              simp⟩
          | none =>
            exact ⟨[.ContainerStart id, .ContainerInspect id,
              .Dial (collectEndpoints ports).1], by
              simp only [OpenContext, ContainerCreate, ContainerStart, ContainerInspect, hbad,
                if_false, Dial, Runtime.log]
              simp⟩

/-- C9: the create call is the first call of every run of `OpenContext`, and
the specification it passes exposes exactly the key of the control port 50000
and the key of each requested port, each once (so one more key than requested
ports when these are pairwise distinct and none is 50000); the port-binding
map has the same keys, every one bound to the single binding whose host
address is the configured one and whose host port is empty. -/
theorem openContext_container_spec (s : AgentServer) (req : OpenContextReq) :
    (∀ o rt, ∃ later, (OpenContext s req o rt).2.calls =
        rt.calls ++ .ContainerCreate (config req) (hostConfig s req) :: later) ∧
      (config req).ExposedPorts = exposedPorts req ∧
      (hostConfig s req).PortBindings = portBindings s req ∧
      (mapKeys (exposedPorts req)).Nodup ∧
      (∀ k, k ∈ mapKeys (exposedPorts req) ↔
        k = tcpPort 50000 ∨ ∃ p ∈ req.Ports, k = tcpPort p) ∧
      (req.Ports.Nodup → 50000 ∉ req.Ports →
        (exposedPorts req).length = req.Ports.length + 1) ∧
      mapKeys (portBindings s req) = mapKeys (exposedPorts req) ∧
      (∀ e ∈ portBindings s req, e.2 = [{ HostIP := s.HostIp, HostPort := "" }]) := by
  refine ⟨openContext_first_call s req, rfl, rfl, ?_, mem_mapKeys_exposedPorts req, ?_, ?_,
    portBindings_values s req⟩
  · rw [mapKeys_exposedPorts]
    exact nodup_foldl_addKey _ _ _ (List.nodup_singleton _)
  · intro hnodup h50000
    have hlen : (mapKeys (exposedPorts req)).length = req.Ports.length + 1 := by
      rw [mapKeys_exposedPorts, length_foldl_addKey]
      · simp; omega
      · exact hnodup.map tcpPort_injective
      · intro p hp hmem
        rw [List.mem_singleton] at hmem
        exact h50000 (tcpPort_injective hmem ▸ hp)
    simpa [mapKeys] using hlen
  · rw [mapKeys_portBindings, mapKeys_exposedPorts]

/-- C9 at the sample request, whose one port 8080 differs from 50000: two
ports are exposed. -/
theorem openContext_container_spec_witness :
    (exposedPorts sampleReq).length = sampleReq.Ports.length + 1 ∧
      exposedPorts sampleReq = [(tcpPort 50000, ()), (tcpPort 8080, ())] ∧
      portBindings sampleServer sampleReq =
        [(tcpPort 50000, [{ HostIP := "10.0.0.1", HostPort := "" }]),
         (tcpPort 8080, [{ HostIP := "10.0.0.1", HostPort := "" }])] :=
  ⟨(openContext_container_spec sampleServer sampleReq).2.2.2.2.2.1 (by decide) (by decide),
    by decide, by decide⟩

/-! ## Requested ports against inspected ports -/

theorem userKeys_length (ports : PortMap) :
    (userKeys ports).length = (collectEndpoints ports).2.length := by
  rw [collectEndpoints_snd, filterMap_userEndpoint_length, userKeys, List.length_map,
    List.countP_eq_length_filter]

theorem userKeys_nodup (ports : PortMap) (h : (mapKeys ports).Nodup) :
    (userKeys ports).Nodup :=
  List.Nodup.sublist ((List.filter_sublist ports).map Prod.fst) h

theorem userKeys_requested (req : OpenContextReq) (ports : PortMap)
    (hw : inspectWithinExposed req ports) (k : Port) (hk : k ∈ userKeys ports) :
    ∃ p ∈ req.Ports, p ≠ 50000 ∧ k = tcpPort p := by
  simp only [userKeys, List.mem_map, List.mem_filter, decide_eq_true_eq] at hk
  obtain ⟨e, ⟨he, hint, hne⟩, rfl⟩ := hk
  rcases (mem_mapKeys_exposedPorts req e.1).1 (hw.2 e he hne) with h | ⟨p, hp, h⟩
  · exact absurd (by rw [h]; rfl) hint
  · refine ⟨p, hp, ?_, h⟩
    intro h50000
    apply hint
    rw [h, h50000]
    rfl

theorem userKeys_toFinset_subset (req : OpenContextReq) (ports : PortMap)
    (hw : inspectWithinExposed req ports) :
    (userKeys ports).toFinset ⊆ (req.Ports.toFinset.erase 50000).image tcpPort := by
  intro k hk
  obtain ⟨p, hp, hne, rfl⟩ := userKeys_requested req ports hw k (List.mem_toFinset.1 hk)
  exact Finset.mem_image_of_mem _ (Finset.mem_erase.2 ⟨hne, List.mem_toFinset.2 hp⟩)

theorem nodup_of_length_le_card (l : List Nat) (h : l.length ≤ l.toFinset.card) : l.Nodup := by
  rw [List.card_toFinset] at h
  have hsub := List.dedup_sublist l
  have hlen : l.dedup.length = l.length := le_antisymm hsub.length_le h
  exact List.dedup_eq_self.1 (hsub.length_eq.1 hlen)

/-- The chain of bounds from the user-port endpoints to the requested ports. -/
theorem userKeys_length_le (req : OpenContextReq) (ports : PortMap)
    (hw : inspectWithinExposed req ports) :
    (userKeys ports).length ≤ (req.Ports.toFinset.erase 50000).card := by
  rw [← List.toFinset_card_of_nodup (userKeys_nodup ports hw.1)]
  exact (Finset.card_le_card (userKeys_toFinset_subset req ports hw)).trans Finset.card_image_le

theorem userKeys_length_lt (req : OpenContextReq) (ports : PortMap)
    (hw : inspectWithinExposed req ports) (hbad : ¬ req.Ports.Nodup ∨ 50000 ∈ req.Ports) :
    (userKeys ports).length < req.Ports.length := by
  have h1 := userKeys_length_le req ports hw
  have h2 : (req.Ports.toFinset.erase 50000).card ≤ req.Ports.toFinset.card :=
    Finset.card_erase_le
  have h3 := List.toFinset_card_le req.Ports
  rcases hbad with hdup | hmem
  · by_contra hlt
    exact hdup (nodup_of_length_le_card req.Ports (by omega))
  · have h4 := Finset.card_erase_lt_of_mem (List.mem_toFinset.2 hmem)
    omega

/-- The calls and the result of a run that reaches the port check and fails it. -/
theorem openContext_port_mismatch (s : AgentServer) (req : OpenContextReq) (o : OpenOutcomes)
    (rt : Runtime) (id : String) (ports : PortMap) (hc : o.create = .ok id)
    (hs : o.start = none) (hi : o.inspect = .ok ports)
    (hbad : (collectEndpoints ports).1 = "" ∨
      (collectEndpoints ports).2.length ≠ req.Ports.length) :
    (OpenContext s req o rt).1 = .error (.NotEnoughPortMapping ports) ∧
      (OpenContext s req o rt).2.calls =
        rt.calls ++ [.ContainerCreate (config req) (hostConfig s req), .ContainerStart id,
          .ContainerInspect id, .ContainerStop id none, .ContainerRemove id false] := by
  obtain ⟨create, start, inspect, dial, stop, remove⟩ := o
  simp only at hc hs hi
  subst hc hs hi
  simp only [OpenContext, ContainerCreate, ContainerStart, ContainerInspect, hbad, if_true,
    cleanupContainerFunc_calls, Runtime.log]
  simp

/-- C10: take an inspect answer that reports bindings only for ports of the
exposed set built from the request, one key per port.  Then `OpenContext` can
succeed only if the requested ports are pairwise distinct and none of them is
50000; and for a request with a duplicate port or with port 50000, fewer
user-port endpoints are collected than ports were requested, and a run that
reaches the inspect answer returns the "Not enough port mapping" error after
the stop and the remove of the cleanup closure. -/
theorem openContext_needs_distinct_ports (s : AgentServer) (req : OpenContextReq)
    (o : OpenOutcomes) (rt : Runtime) (ports : PortMap) (hi : o.inspect = .ok ports)
    (hw : inspectWithinExposed req ports) :
    ((∃ resp, (OpenContext s req o rt).1 = .ok resp) →
        req.Ports.Nodup ∧ 50000 ∉ req.Ports) ∧
      ((¬ req.Ports.Nodup ∨ 50000 ∈ req.Ports) →
        (collectEndpoints ports).2.length < req.Ports.length ∧
        ∀ id, o.create = .ok id → o.start = none →
          (OpenContext s req o rt).1 = .error (.NotEnoughPortMapping ports) ∧
          (OpenContext s req o rt).2.calls =
            rt.calls ++ [.ContainerCreate (config req) (hostConfig s req), .ContainerStart id,
              .ContainerInspect id, .ContainerStop id none, .ContainerRemove id false]) := by
  have hlt : (¬ req.Ports.Nodup ∨ 50000 ∈ req.Ports) →
      (collectEndpoints ports).2.length < req.Ports.length := by
    intro hbad
    rw [← userKeys_length]
    exact userKeys_length_lt req ports hw hbad
  constructor
  · rintro ⟨resp, hresp⟩
    obtain ⟨id, ports', -, -, hi', -, -, hlen, -⟩ := openContext_ok_inv s req o rt resp hresp
    rw [hi] at hi'
    cases hi'
    by_contra hcon
    have hbad : ¬ req.Ports.Nodup ∨ 50000 ∈ req.Ports := by
      by_cases hn : req.Ports.Nodup
      · exact Or.inr (by_contra fun h => hcon ⟨hn, h⟩)
      · exact Or.inl hn
    have := hlt hbad
    omega
  · intro hbad
    refine ⟨hlt hbad, ?_⟩
    intro id hc hs
    exact openContext_port_mismatch s req o rt id ports hc hs hi
      (Or.inr (Nat.ne_of_lt (hlt hbad)))

/-- C10 at the request for ports 8080 and 8080, answered with bindings for
50000 and 8080: one user-port endpoint is collected for two requested ports
and the open fails with the port-mapping error after the cleanup. -/
theorem openContext_needs_distinct_ports_witness :
    inspectWithinExposed sampleReqDup sampleInspect ∧
      (collectEndpoints sampleInspect).2.length < sampleReqDup.Ports.length ∧
      (OpenContext sampleServer sampleReqDup sampleOpenOk emptyRuntime).1 =
        .error (.NotEnoughPortMapping sampleInspect) ∧
      (OpenContext sampleServer sampleReqDup sampleOpenOk emptyRuntime).2.calls =
        emptyRuntime.calls ++
          [.ContainerCreate (config sampleReqDup) (hostConfig sampleServer sampleReqDup),
           .ContainerStart "c1", .ContainerInspect "c1", .ContainerStop "c1" none,
           .ContainerRemove "c1" false] :=
  have hw : inspectWithinExposed sampleReqDup sampleInspect := ⟨by decide, by decide⟩
  have h := (openContext_needs_distinct_ports sampleServer sampleReqDup sampleOpenOk emptyRuntime
    sampleInspect rfl hw).2 (Or.inl (by decide))
  ⟨hw, h.1, h.2 "c1" rfl rfl⟩

/-- C4 fails as stated: the request asks for port 8080, the inspect answer
binds 50000 and 9090, the counts agree, and the open succeeds with one endpoint
for port 9090 and none for port 8080. -/
theorem openContext_endpoint_for_other_port :
    (OpenContext sampleServer sampleReq sampleOpenOther emptyRuntime).1 =
        .ok { ContextId := "c1", GrpcEndpoint := "10.0.0.1:32768",
              PortEndpoints := [{ Port := 9090, Endpoint := "10.0.0.1:32770" }] } ∧
      8080 ∈ sampleReq.Ports ∧
      ¬ ∃ e ∈ [({ Port := 9090, Endpoint := "10.0.0.1:32770" } : PortEndpoint)],
        e.Port = 8080 :=
  ⟨rfl, by decide, by decide⟩

/-- C4, amended: when the requested ports are port numbers (at most 65535)
and the inspect answer reports bindings only for ports of the exposed set built
from the request, one key per port, every successful `OpenContext` returns, for
each requested port `p`, an endpoint whose `Port` is `p`. -/
theorem openContext_endpoint_per_port (s : AgentServer) (req : OpenContextReq)
    (o : OpenOutcomes) (rt : Runtime) (resp : OpenContextResp) (ports : PortMap)
    (h : (OpenContext s req o rt).1 = .ok resp) (hi : o.inspect = .ok ports)
    (hw : inspectWithinExposed req ports) (h16 : ∀ p ∈ req.Ports, p ≤ 65535) :
    ∀ p ∈ req.Ports, ∃ e ∈ resp.PortEndpoints, e.Port = p := by
  obtain ⟨id, ports', -, -, hi', -, -, hlen, rfl⟩ := openContext_ok_inv s req o rt resp h
  rw [hi] at hi'
  cases hi'
  have hklen : (userKeys ports).length = req.Ports.length := by rw [userKeys_length, hlen]
  have hsub := userKeys_toFinset_subset req ports hw
  have hcardK := List.toFinset_card_of_nodup (userKeys_nodup ports hw.1)
  have hcard : ((req.Ports.toFinset.erase 50000).image tcpPort).card ≤
      (userKeys ports).toFinset.card := by
    have h1 : ((req.Ports.toFinset.erase 50000).image tcpPort).card ≤
        (req.Ports.toFinset.erase 50000).card := Finset.card_image_le
    have h2 : (req.Ports.toFinset.erase 50000).card ≤ req.Ports.toFinset.card :=
      Finset.card_erase_le
    have h3 := List.toFinset_card_le req.Ports
    omega
  have heq := Finset.eq_of_subset_of_card_le hsub hcard
  have h50000 : 50000 ∉ req.Ports := by
    intro hmem
    have := userKeys_length_lt req ports hw (Or.inr hmem)
    omega
  intro p hp
  have hpT : tcpPort p ∈ (req.Ports.toFinset.erase 50000).image tcpPort :=
    Finset.mem_image_of_mem _
      (Finset.mem_erase.2 ⟨fun hp50 => h50000 (hp50 ▸ hp), List.mem_toFinset.2 hp⟩)
  rw [← heq, List.mem_toFinset] at hpT
  simp only [userKeys, List.mem_map, List.mem_filter, decide_eq_true_eq] at hpT
  obtain ⟨e, ⟨he, hint, hne⟩, hkey⟩ := hpT
  obtain ⟨k, bs⟩ := e
  simp only at hint hne hkey
  subst hkey
  cases bs with
  | nil => exact absurd rfl hne
  | cons b bs =>
    refine ⟨{ Port := uint32 (tcpPort p).Int,
              Endpoint := sprintfHostPort b.HostIP b.HostPort }, ?_, ?_⟩
    · rw [collectEndpoints_snd, List.mem_filterMap]
      exact ⟨_, he, by simp [userEndpoint, hint]⟩
    · have hp16 : p ≤ 65535 := h16 p hp
      simp only [uint32, Port.Int, tcpPort, hp16, if_true]
      exact Nat.mod_eq_of_lt (lt_of_le_of_lt hp16 (by norm_num))

/-- Why the requested ports are taken to be port numbers: for the requested
port 70000, answered with bindings for the keys of 50000 and 70000, the open
succeeds and the endpoint it returns carries `Port` 0, the 16-bit parse of the
key having failed. -/
theorem openContext_port_above_16_bits :
    inspectWithinExposed sampleReqWide sampleInspectWide ∧
      (OpenContext sampleServer sampleReqWide sampleOpenWide emptyRuntime).1 =
        .ok { ContextId := "c1", GrpcEndpoint := "10.0.0.1:32768",
              PortEndpoints := [{ Port := 0, Endpoint := "10.0.0.1:32771" }] } :=
  ⟨⟨by decide, by decide⟩, rfl⟩

/-- C4, amended, at the sample run: the endpoint for the requested port 8080
is in the response. -/
theorem openContext_endpoint_per_port_witness :
    inspectWithinExposed sampleReq sampleInspect ∧
      ∀ p ∈ sampleReq.Ports, ∃ e ∈ sampleResp.PortEndpoints, e.Port = p :=
  have hw : inspectWithinExposed sampleReq sampleInspect := ⟨by decide, by decide⟩
  ⟨hw, openContext_endpoint_per_port sampleServer sampleReq sampleOpenOk emptyRuntime sampleResp
    sampleInspect rfl rfl hw (by decide)⟩

/-! ## Split: the pieces determine the text -/

theorem splitChars_ne_nil (sep : Char) (cs : List Char) : splitChars sep cs ≠ [] := by
  cases cs with
  | nil => simp [splitChars]
  | cons c cs =>
    by_cases hc : c = sep
    · simp [splitChars, hc]
    · cases hrest : splitChars sep cs <;> simp [splitChars, hc, hrest]

/-- No piece of a split contains the separator. -/
theorem splitChars_no_sep (sep : Char) (cs : List Char) :
    ∀ field ∈ splitChars sep cs, sep ∉ field := by
  induction cs with
  | nil => simp [splitChars]
  | cons c cs ih =>
    by_cases hc : c = sep
    · intro field hfield
      simp only [splitChars, hc, if_true, List.mem_cons] at hfield
      rcases hfield with rfl | h
      · simp
      · exact ih field h
    · cases hrest : splitChars sep cs with
      | nil => exact absurd hrest (splitChars_ne_nil sep cs)
      | cons f fs =>
        rw [hrest] at ih
        intro field hfield
        simp only [splitChars, hc, if_false, hrest, List.mem_cons] at hfield
        rcases hfield with rfl | h
        · intro hmem
          rcases List.mem_cons.1 hmem with h' | h'
          · exact hc h'.symm
          · exact ih f (List.mem_cons_self _ _) h'
        · exact ih field (List.mem_cons_of_mem _ h)

/-- Joining the pieces of a split with the separator gives the text back. -/
theorem splitChars_intercalate (sep : Char) (cs : List Char) :
    List.intercalate [sep] (splitChars sep cs) = cs := by
  induction cs with
  | nil => simp [splitChars, List.intercalate]
  | cons c cs ih =>
    cases hrest : splitChars sep cs with
    | nil => exact absurd hrest (splitChars_ne_nil sep cs)
    | cons f fs =>
      rw [hrest] at ih
      by_cases hc : c = sep
      · simp only [splitChars, hc, if_true, hrest]
        simp only [List.intercalate, List.intersperse, List.flatten] at ih ⊢
        simp [ih]
      · simp only [splitChars, hc, if_false, hrest]
        cases fs with
        | nil =>
          simp only [List.intercalate, List.intersperse, List.flatten] at ih ⊢
          simpa using ih
        | cons g gs =>
          simp only [List.intercalate, List.intersperse, List.flatten] at ih ⊢
          simpa using ih

end PvAgent
